import Mathlib

/-!
Verification of the Snake game engine (`src/snake.py`, class `SnakeGame`).

Shallow embedding: cells and direction vectors are integer pairs
`(row, col)`, exactly as the Python tuples; the mutable object state is a
record `GameState`, and every mutating method becomes a function
`GameState → GameState`.  The ambient random source used by
`random.choice` in `place_food` is made explicit as a natural-number
`pick` selecting an index into the list of empty cells (reduced modulo
its length so every empty cell is selected by some pick).
-/

set_option autoImplicit false

namespace SnakeGame

/-- A board cell `(row, col)`, as a Python `(int, int)` tuple. -/
abbrev Cell : Type := Int × Int

/-- A direction vector `(drow, dcol)`; the four enum values of
`Direction` in the source are `RIGHT=(0,1)`, `DOWN=(1,0)`, `LEFT=(0,-1)`,
`UP=(-1,0)`. -/
abbrev Dir : Type := Int × Int

def RIGHT : Dir := (0, 1)
def DOWN : Dir := (1, 0)
def LEFT : Dir := (0, -1)
def UP : Dir := (-1, 0)

/-- The mutable fields of a `SnakeGame` object (rendering fields
omitted; they hold no game logic). -/
structure GameState where
  width : Nat
  height : Nat
  snake : List Cell
  direction : Dir
  food_position : Cell
  score : Nat
  game_over : Bool
  steps : Nat
  deriving Repr, DecidableEq

/-- `self.snake[0]`: the head cell.  The source indexes unconditionally;
theorems that rely on the head carry the hypothesis `s.snake ≠ []`. -/
def headCell (s : GameState) : Cell := s.snake.headD (0, 0)

/-- `is_valid_direction`: true unless `new_dir` is the exact negation of
the current direction (`snake.py` lines 102-105). -/
def is_valid_direction (s : GameState) (new_dir : Dir) : Bool :=
  !(new_dir.1 == -s.direction.1 && new_dir.2 == -s.direction.2)

/-- The direction the tick proceeds with: `update` first adopts the
requested direction when one is supplied and `is_valid_direction` holds
(`snake.py` lines 72-73; a supplied tuple is always truthy in Python). -/
def adoptedDir (s : GameState) (d : Option Dir) : Dir :=
  match d with
  | none => s.direction
  | some nd => if is_valid_direction s nd then nd else s.direction

/-- `head + direction` for the tick (`snake.py` line 77). -/
def newHead (s : GameState) (d : Option Dir) : Cell :=
  ((headCell s).1 + (adoptedDir s d).1, (headCell s).2 + (adoptedDir s d).2)

/-- Whether a cell lies outside `[0,height) × [0,width)`, the wall-collision
test of `snake.py` lines 80-81 (also used in `check_danger`). -/
def offBoard (s : GameState) (c : Cell) : Prop :=
  c.1 < 0 ∨ c.1 ≥ (s.height : Int) ∨ c.2 < 0 ∨ c.2 ≥ (s.width : Int)

instance (s : GameState) (c : Cell) : Decidable (offBoard s c) := by
  unfold offBoard; infer_instance

/-- The cell at grid coordinates `(r, c)`. -/
def mkCell (r c : Nat) : Cell := ((r : Int), (c : Int))

/-- The list comprehension of `place_food`: all cells `(i, j)` with
`i ∈ range(height)`, `j ∈ range(width)` and `(i, j) not in snake`, in
row-major order (`snake.py` lines 62-65). -/
def emptyCells (s : GameState) : List Cell :=
  (List.range s.height).flatMap fun i =>
    ((List.range s.width).map fun j => mkCell i j).filter
      fun c => !(s.snake.contains c)

/-- `place_food` (`snake.py` lines 60-67): if the empty-cell list is
nonempty, set the food to a randomly chosen element of it (the random
choice is the explicit `pick` index, reduced modulo the list length);
otherwise leave the state unchanged. -/
def place_food (pick : Nat) (s : GameState) : GameState :=
  let ec := emptyCells s
  { s with food_position := ec.getD (pick % ec.length) s.food_position }

/-- `update` (`snake.py` lines 69-100): one simulation tick.  `d = none`
models calling `update()` with no argument; `pick` is the randomness
consumed by `place_food` when food is eaten. -/
def update (s : GameState) (d : Option Dir) (pick : Nat) : GameState :=
  let dir := adoptedDir s d
  let s0 := { s with direction := dir }
  let nh := newHead s d
  if offBoard s nh then { s0 with game_over := true }
  else if nh ∈ s.snake then { s0 with game_over := true }
  else
    let s1 := { s0 with snake := nh :: s.snake }
    if nh = s.food_position then
      let s2 := place_food pick { s1 with score := s1.score + 1 }
      { s2 with steps := s2.steps + 1 }
    else
      { s1 with snake := s1.snake.dropLast, steps := s1.steps + 1 }

/-- `check_danger` (`snake.py` lines 172-186): true iff one step from the
head in `direction` is off-board or hits the current body. -/
def check_danger (s : GameState) (direction : Dir) : Bool :=
  let new_pos : Cell :=
    ((headCell s).1 + direction.1, (headCell s).2 + direction.2)
  if offBoard s new_pos then true
  else if new_pos ∈ s.snake then true
  else false

/-- `get_right_direction` (`snake.py` lines 188-196). -/
def get_right_direction (s : GameState) : Dir :=
  if s.direction = RIGHT then DOWN
  else if s.direction = DOWN then LEFT
  else if s.direction = LEFT then UP
  else RIGHT

/-- `get_left_direction` (`snake.py` lines 198-206). -/
def get_left_direction (s : GameState) : Dir :=
  if s.direction = RIGHT then UP
  else if s.direction = UP then LEFT
  else if s.direction = LEFT then DOWN
  else RIGHT

/-- `get_danger_state` (`snake.py` lines 125-170): the 11-element feature
vector, booleans in place of the `float32` 0/1 entries. -/
def get_danger_state (s : GameState) : List Bool :=
  let head := headCell s
  let danger_straight := check_danger s s.direction
  let danger_right := check_danger s (get_right_direction s)
  let danger_left := check_danger s (get_left_direction s)
  let food_dir : Int × Int :=
    (s.food_position.1 - head.1, s.food_position.2 - head.2)
  let food_up := food_dir.1 < 0
  let food_right := food_dir.2 > 0
  let food_down := food_dir.1 > 0
  let food_left := food_dir.2 < 0
  let dir_right := s.direction = RIGHT
  let dir_down := s.direction = DOWN
  let dir_left := s.direction = LEFT
  let dir_up := s.direction = UP
  [danger_straight, danger_right, danger_left,
   decide dir_right, decide dir_down, decide dir_left, decide dir_up,
   decide food_up, decide food_right, decide food_down, decide food_left]

/-- One numpy assignment `state[p.0, p.1, ch] = 1` on the grid, modelled
as a pointwise function update (valid for in-grid indices; the theorems
about `get_state` assume in-grid snake and food, as the numpy indexing
otherwise wraps or raises). -/
def npSet (g : Cell → Nat → Nat) (p : Cell) (ch : Nat) : Cell → Nat → Nat :=
  fun q k => if q = p ∧ k = ch then 1 else g q k

/-- The fully-written grid of `get_state` as a function of cell and
channel: zeros, then channel-0 marks for `snake[1:]`, then the head mark
on channel 1, then the food mark on channel 2 (`snake.py` lines 107-123). -/
def stateFun (s : GameState) : Cell → Nat → Nat :=
  let afterBody := (s.snake.drop 1).foldl (fun g seg => npSet g seg 0) fun _ _ => 0
  let afterHead := npSet afterBody (headCell s) 1
  npSet afterHead s.food_position 2

/-- `get_state`: the returned array of shape `(height, width, 3)`,
materialised as nested lists in row-major order. -/
def get_state (s : GameState) : List (List (List Nat)) :=
  (List.range s.height).map fun r =>
    (List.range s.width).map fun c =>
      [stateFun s (mkCell r c) 0, stateFun s (mkCell r c) 1,
       stateFun s (mkCell r c) 2]

/-- `reset` (`snake.py` lines 46-58) as the state it produces: a 3-cell
snake centred on the board heading `RIGHT`, food placed by `place_food`
(consuming `pick`), score/steps zero, game on.  The pre-reset food value
is irrelevant; `(0,0)` stands for the `None` of `__init__`. -/
def resetState (w h : Nat) (pick : Nat) : GameState :=
  let mx : Int := (w / 2 : Nat)
  let my : Int := (h / 2 : Nat)
  place_food pick
    { width := w, height := h
      snake := [(my, mx), (my, mx - 1), (my, mx - 2)]
      direction := RIGHT, food_position := (0, 0)
      score := 0, game_over := false, steps := 0 }

/-- States reachable from `reset` by `update` calls made while
`game_over` is false (direction requests and food randomness arbitrary). -/
inductive Reachable (w h : Nat) : GameState → Prop where
  | reset : ∀ pick, Reachable w h (resetState w h pick)
  | step : ∀ s d pick, Reachable w h s → s.game_over = false →
      Reachable w h (update s d pick)

/-- The growth scenario of the spec: 20×20 board, snake
`[(10,10),(10,9),(10,8)]` heading `RIGHT`, food directly ahead. -/
def sampleState : GameState :=
  { width := 20, height := 20, snake := [(10, 10), (10, 9), (10, 8)]
    direction := RIGHT, food_position := (10, 11)
    score := 0, game_over := false, steps := 0 }

/-- Same position with the food far away: a plain movement tick. -/
def sampleStateFar : GameState :=
  { sampleState with food_position := (0, 0) }

/-- A 1×1 board fully covered by the snake: `place_food` finds no empty
cell, so the food stays where it was — on the snake. -/
def fullBoard : GameState :=
  { width := 1, height := 1, snake := [(0, 0)], direction := RIGHT
    food_position := (0, 0), score := 0, game_over := false, steps := 0 }

/-- A terminated state (`game_over = true`) with a free cell ahead. -/
def overState : GameState :=
  { sampleStateFar with game_over := true }

/-- A curled snake whose head-plus-direction lands exactly on its own
tail cell `(4,5)` (direction `UP` from head `(5,5)`). -/
def tailState : GameState :=
  { width := 20, height := 20
    snake := [(5, 5), (5, 4), (4, 4), (4, 5)]
    direction := UP, food_position := (0, 0)
    score := 0, game_over := false, steps := 0 }

/-- The wall scenario of the spec: head at `(0,5)` moving `UP` on a
20×20 board, so the next head cell has row `-1`. -/
def wallState : GameState :=
  { width := 20, height := 20, snake := [(0, 5), (1, 5), (2, 5)]
    direction := UP, food_position := (3, 3)
    score := 0, game_over := false, steps := 0 }

/-- A small 2×3 board used to evaluate the grid encoding concretely. -/
def tinyState : GameState :=
  { width := 3, height := 2, snake := [(0, 1), (0, 0)], direction := RIGHT
    food_position := (1, 2), score := 0, game_over := false, steps := 0 }

lemma place_food_snake (pick : Nat) (s : GameState) :
    (place_food pick s).snake = s.snake := rfl

lemma place_food_score (pick : Nat) (s : GameState) :
    (place_food pick s).score = s.score := rfl

lemma place_food_steps (pick : Nat) (s : GameState) :
    (place_food pick s).steps = s.steps := rfl

lemma place_food_direction (pick : Nat) (s : GameState) :
    (place_food pick s).direction = s.direction := rfl

lemma place_food_game_over (pick : Nat) (s : GameState) :
    (place_food pick s).game_over = s.game_over := rfl

lemma update_direction (s : GameState) (d : Option Dir) (pick : Nat) :
    (update s d pick).direction = adoptedDir s d := by
  unfold update
  dsimp only
  split
  · rfl
  · split
    · rfl
    · split <;> simp [place_food_direction]

lemma is_valid_direction_iff (s : GameState) (c : Dir) :
    is_valid_direction s c = true ↔ c ≠ (-s.direction.1, -s.direction.2) := by
  rcases c with ⟨a, b⟩
  simp [is_valid_direction, Prod.ext_iff]
  tauto

lemma adoptedDir_reverse (s : GameState) :
    adoptedDir s (some (-s.direction.1, -s.direction.2)) = s.direction := by
  have h : is_valid_direction s (-s.direction.1, -s.direction.2) = false := by
    simp [is_valid_direction]
  simp [adoptedDir, h]

lemma adoptedDir_of_ne (s : GameState) (c : Dir)
    (h : c ≠ (-s.direction.1, -s.direction.2)) :
    adoptedDir s (some c) = c := by
  have hv : is_valid_direction s c = true := (is_valid_direction_iff s c).mpr h
  simp [adoptedDir, hv]


lemma update_of_collision (s : GameState) (d : Option Dir) (pick : Nat)
    (h : offBoard s (newHead s d) ∨ newHead s d ∈ s.snake) :
    update s d pick = { s with direction := adoptedDir s d, game_over := true } := by
  unfold update
  dsimp only
  rcases h with h | h
  · rw [if_pos h]
  · by_cases hb : offBoard s (newHead s d)
    · rw [if_pos hb]
    · rw [if_neg hb, if_pos h]

lemma update_of_move_eat (s : GameState) (d : Option Dir) (pick : Nat)
    (hin : ¬ offBoard s (newHead s d)) (hns : newHead s d ∉ s.snake)
    (hf : newHead s d = s.food_position) :
    update s d pick =
      { place_food pick
          { s with direction := adoptedDir s d,
                   snake := newHead s d :: s.snake,
                   score := s.score + 1 } with steps := s.steps + 1 } := by
  unfold update
  dsimp only
  rw [if_neg hin, if_neg hns, if_pos hf]
  simp [place_food_steps]

lemma update_of_move_plain (s : GameState) (d : Option Dir) (pick : Nat)
    (hin : ¬ offBoard s (newHead s d)) (hns : newHead s d ∉ s.snake)
    (hf : newHead s d ≠ s.food_position) :
    update s d pick =
      { s with direction := adoptedDir s d,
               snake := (newHead s d :: s.snake).dropLast,
               steps := s.steps + 1 } := by
  unfold update
  dsimp only
  rw [if_neg hin, if_neg hns, if_neg hf]


/-- Claim C3: `is_valid_direction` returns true iff the candidate is
not the exact negation of the current direction vector; consequently
`update` called with the exact reverse leaves the heading unchanged,
while any supplied non-reverse direction is adopted as the new current
direction. -/
theorem reversal_rejected (s : GameState) (c : Dir) (pick : Nat) :
    (is_valid_direction s c = true ↔ c ≠ (-s.direction.1, -s.direction.2)) ∧
    (update s (some (-s.direction.1, -s.direction.2)) pick).direction = s.direction ∧
    (c ≠ (-s.direction.1, -s.direction.2) →
      (update s (some c) pick).direction = c) := by
  refine ⟨is_valid_direction_iff s c, ?_, fun h => ?_⟩
  · rw [update_direction, adoptedDir_reverse]
  · rw [update_direction, adoptedDir_of_ne s c h]

theorem reversal_rejected_witness :
    is_valid_direction sampleState (0, -1) = false ∧
    (update sampleState (some (0, -1)) 0).direction = sampleState.direction ∧
    (update sampleState (some (1, 0)) 0).direction = (1, 0) := by
  have h := reversal_rejected sampleState (1, 0) 0
  exact ⟨by decide, h.2.1, h.2.2 (by decide)⟩


/-- Claim C5: `check_danger d` returns true iff the cell one step from
the head in direction `d` is off the board or coincides with some cell
of the current body, the tail included (the conservative approximation:
no account of the tail vacating on the next move); in this embedding it
is a pure function of the state, matching the mutation-free method. -/
theorem check_danger_spec (s : GameState) (d : Dir) (hne : s.snake ≠ []) :
    (check_danger s d = true ↔
      offBoard s ((headCell s).1 + d.1, (headCell s).2 + d.2) ∨
        ((headCell s).1 + d.1, (headCell s).2 + d.2) ∈ s.snake) ∧
    (s.snake.getLast hne = ((headCell s).1 + d.1, (headCell s).2 + d.2) →
      check_danger s d = true) := by
  constructor
  · unfold check_danger
    dsimp only
    split_ifs <;> simp_all
  · intro ht
    have hmem : ((headCell s).1 + d.1, (headCell s).2 + d.2) ∈ s.snake :=
      ht ▸ List.getLast_mem hne
    unfold check_danger
    dsimp only
    split_ifs <;> simp_all

theorem check_danger_spec_witness :
    check_danger sampleState (0, -1) = true := by
  have h := check_danger_spec sampleState (0, -1) (by decide)
  exact h.1.mpr (Or.inr (by decide))

/-- Claim C2: when the new head (after any direction adoption) lies
outside `[0,height) × [0,width)` or on an existing snake cell, `update`
sets `game_over` to true and performs no further mutation: snake body,
food position, score and step counter are unchanged in that tick. -/
theorem collision_halts (s : GameState) (d : Option Dir) (pick : Nat)
    (hne : s.snake ≠ [])
    (h : offBoard s (newHead s d) ∨ newHead s d ∈ s.snake) :
    (update s d pick).game_over = true ∧
    (update s d pick).snake = s.snake ∧
    (update s d pick).food_position = s.food_position ∧
    (update s d pick).score = s.score ∧
    (update s d pick).steps = s.steps := by
  rw [update_of_collision s d pick h]
  exact ⟨rfl, rfl, rfl, rfl, rfl⟩

theorem collision_halts_witness :
    (update wallState none 0).game_over = true ∧
    (update wallState none 0).snake = wallState.snake ∧
    (update wallState none 0).food_position = wallState.food_position ∧
    (update wallState none 0).score = wallState.score ∧
    (update wallState none 0).steps = wallState.steps :=
  collision_halts wallState none 0 (by decide) (Or.inl (by decide))

/-- Claim C10: when head plus current direction lands exactly on the
current tail cell of a snake of length at least 2, `update` (called with
no direction request) declares a self-collision and sets `game_over`,
even though the tick would have been a no-growth move in which the tail
vacates: the membership test runs against the full body before the tail
is removed. -/
theorem tail_collision (s : GameState) (pick : Nat)
    (hlen : 2 ≤ s.snake.length) (hne : s.snake ≠ [])
    (ht : s.snake.getLast hne = newHead s none)
    (hfood : newHead s none ≠ s.food_position) :
    (update s none pick).game_over = true ∧
    (update s none pick).snake = s.snake ∧
    (update s none pick).steps = s.steps := by
  have hmem : newHead s none ∈ s.snake := ht ▸ List.getLast_mem hne
  rw [update_of_collision s none pick (Or.inr hmem)]
  exact ⟨rfl, rfl, rfl⟩

theorem tail_collision_witness :
    (update tailState none 0).game_over = true ∧
    (update tailState none 0).snake = tailState.snake ∧
    (update tailState none 0).steps = tailState.steps :=
  tail_collision tailState 0 (by decide) (by decide) (by decide) (by decide)


/-- Claim C1: from a live state whose next head cell (current head plus
current direction, after any direction adoption) is inside the grid and
not on the snake, `update` prepends the new head; when it equals the
food, length and score grow by one and new food is placed by
`place_food` over the grown body; otherwise the tail cell is removed and
length, score and food are unchanged; the step counter increases by
exactly 1 in both cases. -/
theorem update_step_spec (s : GameState) (d : Option Dir) (pick : Nat)
    (hgo : s.game_over = false) (hne : s.snake ≠ [])
    (hin : ¬ offBoard s (newHead s d)) (hns : newHead s d ∉ s.snake) :
    ((newHead s d = s.food_position →
        (update s d pick).snake = newHead s d :: s.snake ∧
        (update s d pick).snake.length = s.snake.length + 1 ∧
        (update s d pick).score = s.score + 1 ∧
        (update s d pick).food_position =
          (place_food pick { s with snake := newHead s d :: s.snake }).food_position) ∧
      (newHead s d ≠ s.food_position →
        (update s d pick).snake = (newHead s d :: s.snake).dropLast ∧
        (update s d pick).snake.length = s.snake.length ∧
        (update s d pick).score = s.score ∧
        (update s d pick).food_position = s.food_position)) ∧
    (update s d pick).steps = s.steps + 1 := by
  by_cases hf : newHead s d = s.food_position
  · rw [update_of_move_eat s d pick hin hns hf]
    refine ⟨⟨fun _ => ⟨rfl, by simp [place_food_snake], rfl, rfl⟩, fun h => absurd hf h⟩, rfl⟩
  · rw [update_of_move_plain s d pick hin hns hf]
    refine ⟨⟨fun h => absurd h hf, fun _ => ⟨rfl, by simp, rfl, rfl⟩⟩, rfl⟩

theorem update_step_spec_witness :
    (update sampleState none 0).snake = (10, 11) :: sampleState.snake ∧
    (update sampleState none 0).score = sampleState.score + 1 ∧
    (update sampleState none 0).snake.length = sampleState.snake.length + 1 ∧
    (update sampleState none 0).steps = sampleState.steps + 1 := by
  have h := update_step_spec sampleState none 0 (by decide) (by decide)
    (by decide) (by decide)
  have hg := h.1.1 (by decide)
  exact ⟨hg.1, hg.2.2.1, hg.2.1, h.2⟩

/-- Claim C9, counterexample: the engine does not guard `update` after
termination — from the terminated state `overState` a further `update`
call still mutates the state (the step counter advances), refuting the
claim that no mutation occurs once `game_over` is true. -/
theorem update_after_over_mutates :
    overState.game_over = true ∧
    (update overState none 0).steps = overState.steps + 1 ∧
    update overState none 0 ≠ overState := by decide

/-- Claim C9 (amended): once `game_over` is true `update` is not a
no-op: the flag is never read, so a call whose move does not collide
still prepends the new head and increments the step counter, with
`game_over` remaining true.  No mutation after termination is a
contract on the callers, not enforced by the engine. -/
theorem update_after_over_spec (s : GameState) (d : Option Dir) (pick : Nat)
    (hgo : s.game_over = true) (hne : s.snake ≠ [])
    (hin : ¬ offBoard s (newHead s d)) (hns : newHead s d ∉ s.snake) :
    (update s d pick).steps = s.steps + 1 ∧
    (update s d pick).game_over = true ∧
    headCell (update s d pick) = newHead s d := by
  by_cases hf : newHead s d = s.food_position
  · rw [update_of_move_eat s d pick hin hns hf]
    exact ⟨rfl, hgo ▸ rfl, rfl⟩
  · rw [update_of_move_plain s d pick hin hns hf]
    refine ⟨rfl, hgo ▸ rfl, ?_⟩
    obtain ⟨a, t, hsn⟩ := List.exists_cons_of_ne_nil hne
    rw [hsn]
    simp [headCell, newHead]

theorem update_after_over_spec_witness :
    (update overState none 0).steps = overState.steps + 1 ∧
    (update overState none 0).game_over = true ∧
    headCell (update overState none 0) = newHead overState none :=
  update_after_over_spec overState none 0 (by decide) (by decide)
    (by decide) (by decide)


/-- Claim C4: `get_danger_state` returns exactly the 11 entries
`[danger_straight, danger_right, danger_left, dir_right, dir_down,
dir_left, dir_up, food_up, food_right, food_down, food_left]`, where the
dangers are `check_danger` of the current direction and its right/left
rotations, the direction flags are a one-hot encoding of the current
direction (exactly one true), and the food flags compare the food and
head coordinates (food up iff smaller row, down iff larger row, right
iff larger column, left iff smaller column); the embedding is a pure
function of the state, matching the mutation-free method. -/
theorem danger_state_spec (s : GameState)
    (hdir : s.direction = RIGHT ∨ s.direction = DOWN ∨
      s.direction = LEFT ∨ s.direction = UP) :
    get_danger_state s =
      [check_danger s s.direction, check_danger s (get_right_direction s),
       check_danger s (get_left_direction s),
       decide (s.direction = RIGHT), decide (s.direction = DOWN),
       decide (s.direction = LEFT), decide (s.direction = UP),
       decide (s.food_position.1 < (headCell s).1),
       decide (s.food_position.2 > (headCell s).2),
       decide (s.food_position.1 > (headCell s).1),
       decide (s.food_position.2 < (headCell s).2)] ∧
    (get_danger_state s).length = 11 ∧
    (((get_danger_state s).drop 3).take 4).count true = 1 := by
  refine ⟨?_, by simp [get_danger_state], ?_⟩
  · unfold get_danger_state
    dsimp only
    refine congrArg₂ _ rfl (congrArg₂ _ rfl (congrArg₂ _ rfl
      (congrArg₂ _ rfl (congrArg₂ _ rfl (congrArg₂ _ rfl (congrArg₂ _ rfl ?_))))))
    have h1 : s.food_position.1 - (headCell s).1 < 0 ↔
        s.food_position.1 < (headCell s).1 := by omega
    have h2 : s.food_position.2 - (headCell s).2 > 0 ↔
        s.food_position.2 > (headCell s).2 := by omega
    have h3 : s.food_position.1 - (headCell s).1 > 0 ↔
        s.food_position.1 > (headCell s).1 := by omega
    have h4 : s.food_position.2 - (headCell s).2 < 0 ↔
        s.food_position.2 < (headCell s).2 := by omega
    rw [decide_eq_decide.mpr h1, decide_eq_decide.mpr h2,
      decide_eq_decide.mpr h3, decide_eq_decide.mpr h4]
  · rcases hdir with h | h | h | h <;>
      simp [get_danger_state, h, RIGHT, DOWN, LEFT, UP, List.count_cons]

theorem danger_state_spec_witness :
    get_danger_state sampleState =
      [check_danger sampleState sampleState.direction,
       check_danger sampleState (get_right_direction sampleState),
       check_danger sampleState (get_left_direction sampleState),
       true, false, false, false, false, true, false, false] ∧
    (((get_danger_state sampleState).drop 3).take 4).count true = 1 := by
  have h := danger_state_spec sampleState (Or.inl (by decide))
  refine ⟨?_, h.2.2⟩
  rw [h.1]
  decide


lemma mem_emptyCells_not_mem_snake (s : GameState) (c : Cell)
    (h : c ∈ emptyCells s) : c ∉ s.snake := by
  simp only [emptyCells, List.mem_flatMap, List.mem_filter, List.mem_map,
    List.mem_range, Bool.not_eq_true'] at h
  obtain ⟨i, _, ⟨j, _, rfl⟩, hns⟩ := h
  simpa using hns

/-- Claim C6, counterexample: on the fully covered 1×1 board
`place_food` leaves the food position unchanged, so immediately after
the call the food still lies on a snake cell — the unconditional
no-overlap clause of the claim fails. -/
theorem place_food_full_board :
    (place_food 0 fullBoard).food_position ∈ fullBoard.snake ∧
    (place_food 0 fullBoard).food_position = fullBoard.food_position := by
  decide

/-- Claim C6 (amended): `place_food` selects the food cell from the
cells not occupied by the snake, and every such cell is selected for
some value of the randomness source; if the snake occupies the whole
board the state is left unchanged; and immediately after `place_food`,
provided at least one unoccupied cell exists, the food position is not
equal to any snake cell. -/
theorem place_food_spec (s : GameState) (pick : Nat) :
    (emptyCells s = [] → place_food pick s = s) ∧
    (emptyCells s ≠ [] →
      (place_food pick s).food_position ∈ emptyCells s ∧
      (place_food pick s).food_position ∉ s.snake) ∧
    (∀ c ∈ emptyCells s, ∃ p, (place_food p s).food_position = c) := by
  refine ⟨fun h => ?_, fun h => ?_, fun c hc => ?_⟩
  · simp [place_food, h]
  · have hlen : 0 < (emptyCells s).length := List.length_pos.mpr h
    have hlt : pick % (emptyCells s).length < (emptyCells s).length :=
      Nat.mod_lt _ hlen
    have hmem : (place_food pick s).food_position ∈ emptyCells s := by
      simp only [place_food, List.getD_eq_getElem?_getD]
      rw [List.getElem?_eq_getElem hlt]
      exact List.getElem_mem _
    exact ⟨hmem, mem_emptyCells_not_mem_snake s _ hmem⟩
  · obtain ⟨i, hi, hci⟩ := List.mem_iff_getElem.mp hc
    refine ⟨i, ?_⟩
    simp only [place_food, List.getD_eq_getElem?_getD]
    rw [Nat.mod_eq_of_lt hi, List.getElem?_eq_getElem hi]
    exact hci

theorem place_food_spec_witness :
    (place_food 0 sampleState).food_position ∈ emptyCells sampleState ∧
    (place_food 0 sampleState).food_position ∉ sampleState.snake ∧
    (∃ p, (place_food p sampleState).food_position = (0, 3)) := by
  have h := place_food_spec sampleState 0
  have hne : emptyCells sampleState ≠ [] := by decide
  have hm := h.2.1 hne
  exact ⟨hm.1, hm.2, h.2.2 (0, 3) (by decide)⟩


lemma foldl_npSet (l : List Cell) (g : Cell → Nat → Nat) (q : Cell) (k : Nat) :
    (l.foldl (fun g seg => npSet g seg 0) g) q k =
      if k = 0 ∧ q ∈ l then 1 else g q k := by
  induction l generalizing g with
  | nil => simp
  | cons a t ih =>
    rw [List.foldl_cons, ih]
    simp only [npSet]
    split_ifs <;> simp_all <;> tauto

lemma stateFun_ch0 (s : GameState) (q : Cell) :
    stateFun s q 0 = if q ∈ s.snake.drop 1 then 1 else 0 := by
  unfold stateFun
  simp only [npSet]
  rw [foldl_npSet]
  norm_num

lemma stateFun_ch1 (s : GameState) (q : Cell) :
    stateFun s q 1 = if q = headCell s then 1 else 0 := by
  unfold stateFun
  simp only [npSet]
  rw [foldl_npSet]
  norm_num

lemma stateFun_ch2 (s : GameState) (q : Cell) :
    stateFun s q 2 = if q = s.food_position then 1 else 0 := by
  unfold stateFun
  simp only [npSet]
  rw [foldl_npSet]
  norm_num

lemma get_state_entry (s : GameState) (r c : Nat) (hr : r < s.height)
    (hc : c < s.width) (k : Nat) (hk : k < 3) :
    (((get_state s).getD r []).getD c []).getD k 0 =
      stateFun s (mkCell r c) k := by
  have h1 : (get_state s).getD r [] =
      (List.range s.width).map fun j =>
        [stateFun s (mkCell r j) 0, stateFun s (mkCell r j) 1,
         stateFun s (mkCell r j) 2] := by
    rw [get_state, List.getD_eq_getElem?_getD, List.getElem?_map,
      List.getElem?_range hr]
    rfl
  have h2 : ((List.range s.width).map fun j =>
      [stateFun s (mkCell r j) 0, stateFun s (mkCell r j) 1,
       stateFun s (mkCell r j) 2]).getD c [] =
      [stateFun s (mkCell r c) 0, stateFun s (mkCell r c) 1,
       stateFun s (mkCell r c) 2] := by
    rw [List.getD_eq_getElem?_getD, List.getElem?_map, List.getElem?_range hc]
    rfl
  rw [h1, h2]
  interval_cases k <;> rfl


/-- Claim C7: for a state whose snake cells and food are inside the
grid, `get_state` returns an array of shape `(height, width, 3)` where
entry `(r,c,0)` is 1 iff `(r,c)` is a snake cell other than the head,
entry `(r,c,1)` is 1 iff `(r,c)` is the head cell, entry `(r,c,2)` is 1
iff `(r,c)` is the food cell, and every other entry is 0; the embedding
is a pure function of the state, matching the mutation-free method. -/
theorem get_state_spec (s : GameState) (hne : s.snake ≠ [])
    (hsnake : ∀ c ∈ s.snake, ¬ offBoard s c)
    (hfood : ¬ offBoard s s.food_position) :
    (get_state s).length = s.height ∧
    (∀ row ∈ get_state s, row.length = s.width ∧ ∀ e ∈ row, e.length = 3) ∧
    (∀ r, r < s.height → ∀ c, c < s.width →
      ((((get_state s).getD r []).getD c []).getD 0 0 =
        if mkCell r c ∈ s.snake.drop 1 then 1 else 0) ∧
      ((((get_state s).getD r []).getD c []).getD 1 0 =
        if mkCell r c = headCell s then 1 else 0) ∧
      ((((get_state s).getD r []).getD c []).getD 2 0 =
        if mkCell r c = s.food_position then 1 else 0)) := by
  refine ⟨by simp [get_state], ?_, ?_⟩
  · intro row hrow
    simp only [get_state, List.mem_map, List.mem_range] at hrow
    obtain ⟨r, _, rfl⟩ := hrow
    constructor
    · simp
    · intro e he
      simp only [List.mem_map, List.mem_range] at he
      obtain ⟨c, _, rfl⟩ := he
      rfl
  · intro r hr c hc
    rw [get_state_entry s r c hr hc 0 (by norm_num),
      get_state_entry s r c hr hc 1 (by norm_num),
      get_state_entry s r c hr hc 2 (by norm_num),
      stateFun_ch0, stateFun_ch1, stateFun_ch2]
    exact ⟨rfl, rfl, rfl⟩

theorem get_state_spec_witness :
    (get_state tinyState).length = tinyState.height ∧
    (((get_state tinyState).getD 0 []).getD 0 []).getD 0 0 = 1 ∧
    (((get_state tinyState).getD 0 []).getD 1 []).getD 1 0 = 1 ∧
    (((get_state tinyState).getD 1 []).getD 2 []).getD 2 0 = 1 ∧
    (((get_state tinyState).getD 1 []).getD 0 []).getD 0 0 = 0 := by
  have h := get_state_spec tinyState (by decide) (by decide) (by decide)
  refine ⟨h.1, ?_, ?_, ?_, ?_⟩
  · rw [(h.2.2 0 (by decide) 0 (by decide)).1]; decide
  · rw [(h.2.2 0 (by decide) 1 (by decide)).2.1]; decide
  · rw [(h.2.2 1 (by decide) 2 (by decide)).2.2]; decide
  · rw [(h.2.2 1 (by decide) 0 (by decide)).1]; decide

lemma resetState_nodup (w h pick : Nat) : (resetState w h pick).snake.Nodup := by
  unfold resetState
  rw [place_food_snake]
  simp [List.nodup_cons, Prod.ext_iff]
  omega

lemma update_nodup (s : GameState) (d : Option Dir) (pick : Nat)
    (h : s.snake.Nodup) : (update s d pick).snake.Nodup := by
  by_cases hb : offBoard s (newHead s d) ∨ newHead s d ∈ s.snake
  · rw [update_of_collision s d pick hb]
    exact h
  · push_neg at hb
    obtain ⟨hb1, hb2⟩ := hb
    by_cases hf : newHead s d = s.food_position
    · rw [update_of_move_eat s d pick hb1 hb2 hf]
      exact List.nodup_cons.mpr ⟨hb2, h⟩
    · rw [update_of_move_plain s d pick hb1 hb2 hf]
      exact List.Nodup.sublist (List.dropLast_sublist _)
        (List.nodup_cons.mpr ⟨hb2, h⟩)

/-- Claim C8: in every state reachable from `reset` by a sequence of
`update` calls made while `game_over` is false, the snake cells are
pairwise distinct. -/
theorem reachable_nodup (w h : Nat) (s : GameState) (hr : Reachable w h s) :
    s.snake.Nodup := by
  induction hr with
  | reset pick => exact resetState_nodup w h pick
  | step s d pick hr hgo ih => exact update_nodup s d pick ih

theorem reachable_nodup_witness :
    (update (resetState 20 20 0) none 0).snake.Nodup :=
  reachable_nodup 20 20 _
    (Reachable.step _ none 0 (Reachable.reset 0) rfl)

end SnakeGame
